import Mathlib

/-!
Verification of the resilient resolution and recovery layer of the
vn-stock-service repository.

The development shallowly embeds the relevant Python code:

* the JSON text handled by the AI-response processors, together with an
  executable model of `json.loads` on that text (`jsonParse`);
* the extraction/repair pipeline of
  `EnhancedAIAdvisor._process_portfolio_response` (greedy regex extraction,
  the regex-substitution repair steps, count-based bracket balancing, the
  regex field-extraction fallback `_extract_data_with_regex`);
* the provider fallback chains `RealVNStockProvider.get_quote` and
  `VietCapitalProvider.get_quote` (SSI, CafeF scrape, AI estimate, basic
  static estimate), with each upstream transport outcome supplied as an
  environment value and Python exceptions modelled by `Except`;
* the tenacity retry decorator on `_call_ai_model`
  (`stop_after_attempt(3)`, retrying every exception);
* the rule-based `AIAdvisor._fallback_advisory`.

Python floats are modelled as `Rat`; wall-clock fields (timestamps) are
omitted.  Text is modelled as `List Char`.
-/

namespace VNStock

/-! ## Character classes and small helpers -/

/-- Whitespace recognised by the regex class `\s` in Python `re`. -/
def reWs (c : Char) : Bool :=
  c = ' ' || c = '\t' || c = '\n' || c = '\r' || c = '\x0b' || c = '\x0c'

/-- Whitespace skipped by Python `json.loads` (space, tab, newline, return). -/
def jsonWs (c : Char) : Bool :=
  c = ' ' || c = '\t' || c = '\n' || c = '\r'

def skipWs (s : List Char) : List Char := s.dropWhile jsonWs

def natOfDigits (ds : List Char) : Nat :=
  ds.foldl (fun n c => 10 * n + (c.toNat - 48)) 0

def isHexDigit (c : Char) : Bool :=
  c.isDigit || ('a' ≤ c && c ≤ 'f') || ('A' ≤ c && c ≤ 'F')

/-! ## JSON values and a model of `json.loads`

String contents are kept raw (escape sequences are validated but not
decoded), and numbers are kept in the syntactic form the scanner read
(sign, integer digits, fraction digits, exponent): two parsed values are
equal exactly when their source lexemes are, which is all the claims need.
`jnumToRat` gives the numeric denotation where the provider code converts
with `float`. -/

/-- A JSON number as scanned: `-?ip(.fp)?([eE]exp)?`. -/
structure JNum where
  neg : Bool
  intDigits : List Char
  fracDigits : List Char
  exp : Option Int
deriving DecidableEq

inductive JValue where
  | jnull : JValue
  | jbool : Bool → JValue
  | jnum : JNum → JValue
  | jstr : List Char → JValue
  | jarr : List JValue → JValue
  | jobj : List (List Char × JValue) → JValue

/-- Numeric denotation of a scanned JSON number. -/
def jnumToRat (n : JNum) : Rat :=
  let base : Rat := (natOfDigits n.intDigits : Rat)
      + (natOfDigits n.fracDigits : Rat) / ((10 : Rat) ^ n.fracDigits.length)
  let scaled : Rat :=
    match n.exp with
    | none => base
    | some e => if 0 ≤ e then base * (10 : Rat) ^ e.toNat else base / ((10 : Rat) ^ (-e).toNat)
  if n.neg then -scaled else scaled

/-- Valid single-character escapes after a backslash in a JSON string. -/
def isEscChar (e : Char) : Bool :=
  e = '"' || e = '\\' || e = '/' || e = 'b' || e = 'f' || e = 'n' || e = 'r' || e = 't'

/-- Body of a JSON string after the opening quote: returns the raw contents
and the remainder after the closing quote. -/
def parseStringBody : List Char → Option (List Char × List Char)
  | [] => none
  | '"' :: rest => some ([], rest)
  | '\\' :: 'u' :: h1 :: h2 :: h3 :: h4 :: rest =>
    if isHexDigit h1 && isHexDigit h2 && isHexDigit h3 && isHexDigit h4 then
      (parseStringBody rest).map
        (fun p => ('\\' :: 'u' :: h1 :: h2 :: h3 :: h4 :: p.1, p.2))
    else none
  | '\\' :: e :: rest =>
    if isEscChar e then
      (parseStringBody rest).map (fun p => ('\\' :: e :: p.1, p.2))
    else none
  | c :: rest =>
    if 0x20 ≤ c.toNat then
      (parseStringBody rest).map (fun p => (c :: p.1, p.2))
    else none

/-- Exponent part of a JSON number after the `e`/`E`; on failure the whole
exponent marker is left unconsumed, as Python's number regex does. -/
def expPart (r : List Char) (orig : List Char) : Option Int × List Char :=
  let signed : Int × List Char :=
    match r with
    | '+' :: rr => (1, rr)
    | '-' :: rr => (-1, rr)
    | _ => (1, r)
  let ds := signed.2.takeWhile Char.isDigit
  if ds = [] then (none, orig)
  else (some (signed.1 * (natOfDigits ds : Int)), signed.2.dropWhile Char.isDigit)

/-- JSON number grammar `-?(0|[1-9][0-9]*)(\.[0-9]+)?([eE][+-]?[0-9]+)?`,
maximal-munch as in Python's scanner (an invalid optional part is left for
the caller to reject). -/
def parseNumber (s : List Char) : Option (JNum × List Char) :=
  let signs : Bool × List Char :=
    match s with
    | '-' :: r => (true, r)
    | _ => (false, s)
  let neg := signs.1
  let s1 := signs.2
  let ip := s1.takeWhile Char.isDigit
  let r1 := s1.dropWhile Char.isDigit
  if ip = [] then none
  else if 1 < ip.length ∧ ip.head? = some '0' then none
  else
    let fracs : List Char × List Char :=
      match r1 with
      | '.' :: r =>
        let f := r.takeWhile Char.isDigit
        if f = [] then ([], r1) else (f, r.dropWhile Char.isDigit)
      | _ => ([], r1)
    let fp := fracs.1
    let r2 := fracs.2
    let exps : Option Int × List Char :=
      match r2 with
      | 'e' :: r => expPart r r2
      | 'E' :: r => expPart r r2
      | _ => (none, r2)
    some (⟨neg, ip, fp, exps.1⟩, exps.2)

mutual

/-- One JSON value, fuel-bounded recursive descent (`json.loads` core).
Fuel `length + 1` always suffices since every recursive call consumes at
least one character first. -/
def parseValue : Nat → List Char → Option (JValue × List Char)
  | 0, _ => none
  | fuel + 1, s =>
    match skipWs s with
    | [] => none
    | '{' :: r =>
      match skipWs r with
      | '}' :: r2 => some (.jobj [], r2)
      | _ =>
        match parsePair fuel r with
        | none => none
        | some (p, r2) =>
          match parseMembers fuel r2 with
          | none => none
          | some (ps, r3) => some (.jobj (p :: ps), r3)
    | '[' :: r =>
      match skipWs r with
      | ']' :: r2 => some (.jarr [], r2)
      | _ =>
        match parseValue fuel r with
        | none => none
        | some (v, r2) =>
          match parseElems fuel r2 with
          | none => none
          | some (vs, r3) => some (.jarr (v :: vs), r3)
    | '"' :: r => (parseStringBody r).map (fun p => (.jstr p.1, p.2))
    | 't' :: r => if r.take 3 = ['r', 'u', 'e'] then some (.jbool true, r.drop 3) else none
    | 'f' :: r => if r.take 4 = ['a', 'l', 's', 'e'] then some (.jbool false, r.drop 4) else none
    | 'n' :: r => if r.take 3 = ['u', 'l', 'l'] then some (.jnull, r.drop 3) else none
    | s2 => (parseNumber s2).map (fun p => (.jnum p.1, p.2))

/-- One `"key": value` member of an object. -/
def parsePair : Nat → List Char → Option ((List Char × JValue) × List Char)
  | 0, _ => none
  | fuel + 1, s =>
    match skipWs s with
    | '"' :: r =>
      match parseStringBody r with
      | none => none
      | some (key, r2) =>
        match skipWs r2 with
        | ':' :: r3 =>
          match parseValue fuel r3 with
          | none => none
          | some (v, r4) => some ((key, v), r4)
        | _ => none
    | _ => none

/-- Remaining members after the first pair: `, pair ... }`. -/
def parseMembers : Nat → List Char → Option (List (List Char × JValue) × List Char)
  | 0, _ => none
  | fuel + 1, s =>
    match skipWs s with
    | ',' :: r =>
      match parsePair fuel r with
      | none => none
      | some (p, r2) =>
        match parseMembers fuel r2 with
        | none => none
        | some (ps, r3) => some (p :: ps, r3)
    | '}' :: r => some ([], r)
    | _ => none

/-- Remaining elements after the first array element: `, value ... ]`. -/
def parseElems : Nat → List Char → Option (List JValue × List Char)
  | 0, _ => none
  | fuel + 1, s =>
    match skipWs s with
    | ',' :: r =>
      match parseValue fuel r with
      | none => none
      | some (v, r2) =>
        match parseElems fuel r2 with
        | none => none
        | some (vs, r3) => some (v :: vs, r3)
    | ']' :: r => some ([], r)
    | _ => none

end

/-- Model of `json.loads`: one JSON value, optionally surrounded by
whitespace, nothing after it. -/
def jsonParse (s : List Char) : Option JValue :=
  match parseValue (s.length + 1) s with
  | some (v, rest) => if skipWs rest = [] then some v else none
  | none => none

/-! ## Extraction and repair pipeline of
`EnhancedAIAdvisor._process_portfolio_response`

`re.search(r'\{.*\}', ai_response, re.DOTALL)` matches from the first `{`
to the last `}` of the text (greedy `.*` with DOTALL), provided some `}`
occurs at or after the first `{`. -/

def extractJson (s : List Char) : Option (List Char) :=
  let t := s.dropWhile (fun c => c ≠ '{')
  let u := (t.reverse.dropWhile (fun c => c ≠ '}')).reverse
  if u = [] then none else some u

/-- Match `\s*[}\]]` at the start: maximal whitespace, then a closer. -/
def wsCloserSplit (s : List Char) : Option (List Char × Char × List Char) :=
  let ws := s.takeWhile reWs
  match s.dropWhile reWs with
  | c :: r => if c = '}' ∨ c = ']' then some (ws, c, r) else none
  | [] => none

/-- `re.sub(r',(\s*[}\]])', r'\1', s)`: drop each comma that directly
precedes optional whitespace and a closing bracket, scanning left to right
and resuming after each match, as `re.sub` does.  Fuel `s.length` is always
sufficient (each step consumes at least one character). -/
def removeCommasAux : Nat → List Char → List Char
  | 0, s => s
  | _ + 1, [] => []
  | fuel + 1, c :: rest =>
    if c = ',' then
      match wsCloserSplit rest with
      | some (ws, cl, r) => ws ++ cl :: removeCommasAux fuel r
      | none => c :: removeCommasAux fuel rest
    else c :: removeCommasAux fuel rest

def removeTrailingCommas (s : List Char) : List Char := removeCommasAux s.length s

/-- Does `"[^"]*"\s*$` match exactly at the head of `s`? -/
def matchQuoteEnd (s : List Char) : Bool :=
  match s with
  | '"' :: r =>
    match r.dropWhile (fun c => c ≠ '"') with
    | '"' :: r2 => r2.all reWs
    | _ => false
  | _ => false

/-- `re.sub(r'"[^"]*"\s*$', '""', s)`: truncate a quoted string that ends
the text (dangling value) to an empty string. -/
def fixDanglingStringAux : Nat → List Char → List Char
  | 0, s => s
  | _ + 1, [] => []
  | fuel + 1, c :: rest =>
    if matchQuoteEnd (c :: rest) then ['"', '"']
    else c :: fixDanglingStringAux fuel rest

def fixDanglingString (s : List Char) : List Char := fixDanglingStringAux s.length s

/-- `re.sub(r':\s*$', ': ""', s)`: complete a trailing bare colon with an
empty string value. -/
def fixDanglingColonAux : Nat → List Char → List Char
  | 0, s => s
  | _ + 1, [] => []
  | fuel + 1, c :: rest =>
    if c = ':' ∧ rest.all reWs then [':', ' ', '"', '"']
    else c :: fixDanglingColonAux fuel rest

def fixDanglingColon (s : List Char) : List Char := fixDanglingColonAux s.length s

/-- Does `,\s*"[^"]*"\s*:\s*"[^"]*$` match exactly at the head of `s`? -/
def matchIncompletePair (s : List Char) : Bool :=
  match s with
  | ',' :: r =>
    match r.dropWhile reWs with
    | '"' :: r2 =>
      match r2.dropWhile (fun c => c ≠ '"') with
      | '"' :: r3 =>
        match r3.dropWhile reWs with
        | ':' :: r5 =>
          match (r5.dropWhile reWs) with
          | '"' :: r7 => r7.all (fun c => c ≠ '"')
          | _ => false
        | _ => false
      | _ => false
    | _ => false
  | _ => false

/-- `re.sub(r',\s*"[^"]*"\s*:\s*"[^"]*$', '', s)`: remove an incomplete
trailing key-value pair. -/
def dropIncompletePairAux : Nat → List Char → List Char
  | 0, s => s
  | _ + 1, [] => []
  | fuel + 1, c :: rest =>
    if matchIncompletePair (c :: rest) then []
    else c :: dropIncompletePairAux fuel rest

def dropIncompletePair (s : List Char) : List Char := dropIncompletePairAux s.length s

/-- Count-based bracket balancing (lines 870-879): append `}` for the brace
deficit, then `]` for the square-bracket deficit of the extended text.
Nothing is appended when closers already outnumber openers. -/
def balanceBrackets (s : List Char) : List Char :=
  let s1 := s ++ List.replicate (s.count '{' - s.count '}') '}'
  s1 ++ List.replicate (s1.count '[' - s1.count ']') ']'

/-- The repair substitutions of `_process_portfolio_response`, applied
unconditionally in source order to the extracted substring. -/
def cleanupRepair (s : List Char) : List Char :=
  balanceBrackets (dropIncompletePair (fixDanglingColon (fixDanglingString (removeTrailingCommas s))))

/-! ## Regex field extraction (`_extract_data_with_regex`) -/

/-- Match a literal pattern at the head, returning the remainder. -/
def litMatch : List Char → List Char → Option (List Char)
  | [], s => some s
  | _, [] => none
  | p :: ps, c :: cs => if c = p then litMatch ps cs else none

/-- `re.search(r'"overall_score":\s*(\d+)', s)`: leftmost occurrence of the
literal key followed by optional whitespace and at least one digit. -/
def searchScoreAux : Nat → List Char → Option Nat
  | 0, _ => none
  | _ + 1, [] => none
  | fuel + 1, c :: rest =>
    match litMatch ("\"overall_score\":".toList) (c :: rest) with
    | some r =>
      let ds := (r.dropWhile reWs).takeWhile Char.isDigit
      if ds = [] then searchScoreAux fuel rest else some (natOfDigits ds)
    | none => searchScoreAux fuel rest

def findOverallScore (s : List Char) : Option Nat := searchScoreAux s.length s

/-- Try `"overall_risk":\s*"([^"]+)"` exactly at the head. -/
def riskAt (s : List Char) : Option (List Char) :=
  match litMatch ("\"overall_risk\":".toList) s with
  | some r =>
    match r.dropWhile reWs with
    | '"' :: r3 =>
      let body := r3.takeWhile (fun c => c ≠ '"')
      match r3.dropWhile (fun c => c ≠ '"') with
      | '"' :: _ => if body = [] then none else some body
      | _ => none
    | _ => none
  | none => none

def searchRiskAux : Nat → List Char → Option (List Char)
  | 0, _ => none
  | _ + 1, [] => none
  | fuel + 1, c :: rest =>
    match riskAt (c :: rest) with
    | some b => some b
    | none => searchRiskAux fuel rest

def findOverallRisk (s : List Char) : Option (List Char) := searchRiskAux s.length s

/-- `'good' if score >= 7 else 'fair' if score >= 5 else 'poor'`. -/
def healthStatus (score : Nat) : List Char :=
  if 7 ≤ score then "good".toList else if 5 ≤ score then "fair".toList else "poor".toList

structure PortfolioHealth where
  overall_score : Nat
  health_status : List Char

/-- One holding of `portfolio_data['positions']`, with the keys the regex
fallback reads (`.get` with defaults). -/
structure Position where
  ticker : Option (List Char)
  shares : Option Rat
  avg_price : Option Rat
  target_price : Option Rat

/-- One entry of the `entry_exit_analysis` list assembled in
entry_exit_strategy mode (numeric content; constant rationale strings
omitted). -/
structure EntryExitItem where
  ticker : List Char
  current_position : Rat
  min_price : Rat
  max_price : Rat
  short_term_target : Rat
  long_term_target : Rat
  support_levels : List Rat
  resistance_levels : List Rat
  stop_loss : Rat
  take_profit : Rat

def entryExitItem (pos : Position) : EntryExitItem :=
  let avg := pos.avg_price.getD 0
  let tgt := pos.target_price.getD (avg * (6 / 5 : Rat))
  { ticker := pos.ticker.getD "Unknown".toList
    current_position := pos.shares.getD 0
    min_price := avg * (9 / 10 : Rat)
    max_price := avg * (11 / 10 : Rat)
    short_term_target := tgt
    long_term_target := pos.target_price.getD (avg * (3 / 2 : Rat))
    support_levels := [avg * (9 / 10 : Rat), avg * (17 / 20 : Rat)]
    resistance_levels := [avg * (11 / 10 : Rat), avg * (6 / 5 : Rat)]
    stop_loss := avg * (17 / 20 : Rat)
    take_profit := tgt }

/-- The object assembled by `_extract_data_with_regex`; constant-only
sections are represented by their distinguishing members
(`diversification['score'] = 6`, `concentration_risk = 'medium'`,
`action_items[0]['priority'] = 'high'`,
`market_outlook['vietnam_market_view'] = 'neutral'`). -/
structure RegexFallbackResult where
  portfolio_health : Option PortfolioHealth
  diversification_score : Nat
  concentration_risk : List Char
  overall_risk : List Char
  entry_exit_analysis : Option (List EntryExitItem)
  action_items_priority : List Char
  vietnam_market_view : List Char

/-- `_extract_data_with_regex` (lines 923-1019).  The body is total, so the
`except` clause returning `None` is never taken; the `Option` result type
mirrors the Python signature. -/
def extractDataWithRegex (ai_response : List Char) (entryExitMode : Bool)
    (positions : List Position) : Option RegexFallbackResult :=
  some
    { portfolio_health :=
        (findOverallScore ai_response).map (fun n => ⟨n, healthStatus n⟩)
      diversification_score := 6
      concentration_risk := "medium".toList
      overall_risk := (findOverallRisk ai_response).getD "medium".toList
      entry_exit_analysis :=
        if entryExitMode then some ((positions.take 5).map entryExitItem) else none
      action_items_priority := "high".toList
      vietnam_market_view := "neutral".toList }

/-! ## The portfolio-response processing pipeline -/

/-- Which way `_process_portfolio_response` produced its analysis:
a successful `json.loads` of the repaired extracted text, the regex
fallback, or `_fallback_portfolio_advisory`.  (On the `parsed` path the
caller then attaches the bookkeeping keys `_complete_ai_response`,
`_json_text` and `metadata` to the parsed dict.) -/
inductive AnalysisOutcome where
  | parsed : JValue → AnalysisOutcome
  | regexFallback : RegexFallbackResult → AnalysisOutcome
  | completeFallback : AnalysisOutcome

/-- Core of `_process_portfolio_response` (lines 845-921) from the AI text
onward: greedy extraction, unconditional repair substitutions, one parse of
the final text, regex fallback on parse failure. -/
def processAIText (ai_response : List Char) (entryExitMode : Bool)
    (positions : List Position) : AnalysisOutcome :=
  match extractJson ai_response with
  | none => .completeFallback
  | some json_text =>
    match jsonParse (cleanupRepair json_text) with
    | some v => .parsed v
    | none =>
      match extractDataWithRegex ai_response entryExitMode positions with
      | some r => .regexFallback r
      | none => .completeFallback

/-- Modelled from the spec: stage-3 syntax repair as §4.2 describes it —
sub-steps (a) remove commas before closing brackets, (b) truncate a
dangling trailing quoted string, (c) append synthetic closing brackets for
the opening/closing deficit, re-attempting a parse after each sub-step and
accepting the first sub-step after which the parse succeeds (the returned
index names the repair that fired, for the warning). -/
def repairStagedSpec (json_text : List Char) : Option (Nat × JValue) :=
  let a := removeTrailingCommas json_text
  match jsonParse a with
  | some v => some (1, v)
  | none =>
    let b := fixDanglingString a
    match jsonParse b with
    | some v => some (2, v)
    | none =>
      let c := balanceBrackets b
      match jsonParse c with
      | some v => some (3, v)
      | none => none

/-! ## Python exceptions and dictionary access -/

/-- The exception classes that flow through the provider chains.
`rateLimitError` and `dataNotFoundError` subclass `DataProviderError`
(adapters/base.py), which subclasses `Exception` — none of them is a
`requests.RequestException`. -/
inductive PyExc where
  | httpError : Nat → PyExc
  | connError : PyExc
  | jsonDecodeError : PyExc
  | rateLimitError : PyExc
  | dataNotFoundError : PyExc
  | dataProviderError : PyExc
  | valueError : PyExc
  | otherError : PyExc
deriving DecidableEq

/-- Membership in `requests.RequestException` (`HTTPError`, connection and
timeout errors, and — since requests 2.27 — `Response.json` decode
errors). -/
def isRequestException : PyExc → Bool
  | .httpError _ => true
  | .connError => true
  | .jsonDecodeError => true
  | _ => false

/-- Last-occurrence lookup in an association list, matching a Python dict
built by `json.loads` (a repeated key keeps its last value). -/
def jLookup (fields : List (List Char × JValue)) (key : List Char) : Option JValue :=
  match fields with
  | [] => none
  | (k, v) :: rest =>
    match jLookup rest key with
    | some w => some w
    | none => if k = key then some v else none

/-- `d.get(key, default)` on a parsed JSON object. -/
def jGetD (fields : List (List Char × JValue)) (key : List Char) (default : JValue) : JValue :=
  (jLookup fields key).getD default

/-- Strip the `\s`-whitespace that Python's numeric constructors allow
around their string argument. -/
def stripPyWs (s : List Char) : List Char :=
  ((s.dropWhile reWs).reverse.dropWhile reWs).reverse

/-- `int(str)`: optional sign and at least one digit (underscore grouping
not modelled). -/
def pyIntLit (s : List Char) : Option Int :=
  match stripPyWs s with
  | '-' :: ds => if ds ≠ [] ∧ ds.all Char.isDigit then some (-(natOfDigits ds : Int)) else none
  | '+' :: ds => if ds ≠ [] ∧ ds.all Char.isDigit then some (natOfDigits ds : Int) else none
  | ds => if ds ≠ [] ∧ ds.all Char.isDigit then some (natOfDigits ds : Int) else none

/-- `float(str)` on the decimal forms `[+-]digits[.digits][e[+-]digits]`
(`inf`/`nan` literals not modelled). -/
def pyFloatLit (s : List Char) : Option Rat :=
  let t := stripPyWs s
  let signs : Bool × List Char :=
    match t with
    | '-' :: r => (true, r)
    | '+' :: r => (false, r)
    | _ => (false, t)
  let ip := signs.2.takeWhile Char.isDigit
  let r1 := signs.2.dropWhile Char.isDigit
  let fracs : Option (List Char) × List Char :=
    match r1 with
    | '.' :: r => (some (r.takeWhile Char.isDigit), r.dropWhile Char.isDigit)
    | _ => (none, r1)
  let fp := (fracs.1).getD []
  if ip = [] ∧ fp = [] then none
  else
    let exps : Option Int × List Char :=
      match fracs.2 with
      | 'e' :: r => expPart r fracs.2
      | 'E' :: r => expPart r fracs.2
      | _ => (none, fracs.2)
    match exps.1, exps.2 with
    | _, _ :: _ => none
    | none, [] =>
      if fracs.2 ≠ [] then none
      else
        let base : Rat := (natOfDigits ip : Rat) + (natOfDigits fp : Rat) / ((10 : Rat) ^ fp.length)
        some (if signs.1 then -base else base)
    | some e, [] =>
      let base : Rat := (natOfDigits ip : Rat) + (natOfDigits fp : Rat) / ((10 : Rat) ^ fp.length)
      let scaled := if 0 ≤ e then base * (10 : Rat) ^ e.toNat else base / ((10 : Rat) ^ (-e).toNat)
      some (if signs.1 then -scaled else scaled)

/-- Truncation toward zero, as Python `int(float)`. -/
def pyTrunc (q : Rat) : Int :=
  if 0 ≤ q then q.floor else -((-q).floor)

/-- `float(x)` on a JSON value (`TypeError`/`ValueError` become `none`). -/
def pyFloat : JValue → Option Rat
  | .jnum q => some (jnumToRat q)
  | .jbool b => some (if b then 1 else 0)
  | .jstr s => pyFloatLit s
  | _ => none

/-- `int(x)` on a JSON value. -/
def pyInt : JValue → Option Int
  | .jnum q => some (pyTrunc (jnumToRat q))
  | .jbool b => some (if b then 1 else 0)
  | .jstr s => pyIntLit s
  | _ => none

/-- `float(d.get(key, default))` where the default is already numeric. -/
def pyFloatField (fs : List (List Char × JValue)) (key : List Char) (default : Rat) :
    Option Rat :=
  match jLookup fs key with
  | some v => pyFloat v
  | none => some default

/-- `int(d.get(key, default))` where the default is already an integer. -/
def pyIntField (fs : List (List Char × JValue)) (key : List Char) (default : Int) :
    Option Int :=
  match jLookup fs key with
  | some v => pyInt v
  | none => some default

/-! ## `RealVNStockProvider.get_quote` fallback chain

The transport outcome of each upstream call is supplied by a `RealEnv`;
the per-source Python code (emptiness checks, numeric conversion, JSON
extraction from the AI text) is modelled concretely.  Timestamp fields are
omitted (wall clock). -/

/-- One record of the SSI `DailyStockPrice` response, after the `float`
conversions of its numeric fields. -/
structure SSIRecord where
  closePrice : Rat
  priceChange : Rat
  perPriceChange : Rat
  totalMatchVol : Int

/-- A quote dict as built by `RealVNStockProvider` (SSI and CafeF attach no
`source`/`confidence`/`note` keys; the AI estimate and the basic estimate
do). -/
structure RealQuote where
  ticker : String
  exchange : String
  price : Rat
  change : Rat
  change_pct : Rat
  volume : Int
  source : Option String
  confidence : Option JValue
  note : Option JValue

/-- Upstream outcomes for one `get_quote` call: the SSI token+POST+json
result, the scraped CafeF cell texts (`none` inside `ok` = the price
table/row was not found), and the Gemini candidate text (`none` inside
`ok` = no candidates in the response). -/
structure RealEnv where
  ssiResp : Except PyExc (List SSIRecord)
  cafefCells : Except PyExc (Option (List (List Char)))
  aiText : Except PyExc (Option (List Char))

/-- The sources of the chain, in invocation order. -/
inductive Src where
  | ssi | cafefSrc | aiSrc | basicSrc
deriving DecidableEq

/-- Lines 103-160: the SSI body of `get_quote` up to its `return`; an empty
`data` array raises `DataNotFoundError`.  The first record is converted and
returned with no semantic validation of the price. -/
def ssiTry (env : RealEnv) (ticker exchange : String) : Except PyExc RealQuote :=
  match env.ssiResp with
  | .error e => .error e
  | .ok [] => .error .dataNotFoundError
  | .ok (d :: _) =>
    .ok { ticker, exchange, price := d.closePrice, change := d.priceChange,
          change_pct := d.perPriceChange, volume := d.totalMatchVol,
          source := none, confidence := none, note := none }

/-- `text.replace(',', '').replace('.', '')` on a scraped cell. -/
def stripSeparators (s : List Char) : List Char :=
  s.filter (fun c => c ≠ ',' ∧ c ≠ '.')

/-- Lines 169-245: the body of `_get_quote_cafef` up to its `return`
(missing table/row and short rows raise `DataNotFoundError`; a non-numeric
cell raises `ValueError` from `float`/`int`). -/
def cafefTry (env : RealEnv) (ticker exchange : String) : Except PyExc RealQuote :=
  match env.cafefCells with
  | .error e => .error e
  | .ok none => .error .dataNotFoundError
  | .ok (some cells) =>
    if cells.length < 6 then .error .dataNotFoundError
    else
      match pyFloatLit (stripSeparators (cells.getD 5 [])) with
      | none => .error .valueError
      | some price =>
        let volRes : Except PyExc Int :=
          if 7 < cells.length then
            match pyIntLit (stripSeparators (cells.getD 7 [])) with
            | some v => .ok v
            | none => .error .valueError
          else .ok 0
        match volRes with
        | .error e => .error e
        | .ok vol =>
          .ok { ticker, exchange, price, change := 0, change_pct := 0, volume := vol,
                source := none, confidence := none, note := none }

/-- The hardcoded last-resort price table of `_get_basic_price_estimate`. -/
def basicPriceEstimates : List (String × Rat) :=
  [("FPT", 125000), ("VCB", 65000), ("TCB", 40000), ("ACB", 25000),
   ("BID", 40000), ("HPG", 25000), ("MSN", 75000), ("VNM", 60000),
   ("KDH", 30000), ("HDG", 27000), ("CMG", 40000)]

/-- `_get_basic_price_estimate`: pure, total, never raises. -/
def basicEstimate (ticker exchange : String) : RealQuote :=
  { ticker, exchange,
    price := (basicPriceEstimates.lookup ticker).getD 50000,
    change := 0, change_pct := 0, volume := 100000,
    source := some "Basic_Estimate",
    confidence := some (.jnum ⟨false, ['0'], ['3'], none⟩),
    note := some (.jstr "Basic fallback price estimate".toList) }

/-- Lines 251-353: the try-body of `_get_quote_ai_fallback`: greedy regex
extraction of a JSON object from the candidate text, `json.loads`, `.get`
with defaults, numeric conversion.  Every failure is an exception that the
enclosing `except` turns into the basic estimate. -/
def aiTry (aiText : Except PyExc (Option (List Char))) (ticker exchange : String) :
    Except PyExc RealQuote :=
  match aiText with
  | .error e => .error e
  | .ok none => .error .otherError
  | .ok (some text) =>
    match extractJson text with
    | none => .error .otherError
    | some jt =>
      match jsonParse jt with
      | none => .error .valueError
      | some ai_data =>
        match ai_data with
        | .jobj fs =>
          match pyFloatField fs "price".toList 50000,
                pyFloatField fs "change".toList 0,
                pyFloatField fs "change_pct".toList 0,
                pyIntField fs "volume".toList 100000 with
          | some price, some change, some cpct, some vol =>
            .ok { ticker, exchange, price, change, change_pct := cpct, volume := vol,
                  source := some "AI_Estimate",
                  confidence := some (jGetD fs "confidence".toList (.jnum ⟨false, ['0'], ['5'], none⟩)),
                  note := some (jGetD fs "note".toList (.jstr "AI-generated price estimate".toList)) }
          | _, _, _, _ => .error .valueError
        | _ => .error .otherError

/-- `_get_quote_ai_fallback` with its catch-all `except`: any failure
returns the basic estimate.  The trace records which sources ran. -/
def aiFallbackE (aiText : Except PyExc (Option (List Char))) (ticker exchange : String) :
    Except PyExc RealQuote × List Src :=
  match aiTry aiText ticker exchange with
  | .ok q => (.ok q, [.aiSrc])
  | .error _ => (.ok (basicEstimate ticker exchange), [.aiSrc, .basicSrc])

/-- `_get_quote_cafef` including its own catch-all `except`, which forwards
to the AI fallback. -/
def cafefQuoteE (env : RealEnv) (ticker exchange : String) :
    Except PyExc RealQuote × List Src :=
  match cafefTry env ticker exchange with
  | .ok q => (.ok q, [.cafefSrc])
  | .error _ =>
    let r := aiFallbackE env.aiText ticker exchange
    (r.1, .cafefSrc :: r.2)

/-- `RealVNStockProvider.get_quote` (lines 103-167): SSI body, and on any
exception the CafeF fallback, whose own failure path already runs the AI
fallback; the outer `except` around the CafeF call would run the AI
fallback again but is unreachable because `cafefQuoteE` never errors. -/
def realVNGetQuote (env : RealEnv) (ticker exchange : String) :
    Except PyExc RealQuote × List Src :=
  match ssiTry env ticker exchange with
  | .ok q => (.ok q, [.ssi])
  | .error _ =>
    let r := cafefQuoteE env ticker exchange
    match r.1 with
    | .ok q => (.ok q, .ssi :: r.2)
    | .error _ =>
      let r2 := aiFallbackE env.aiText ticker exchange
      (r2.1, .ssi :: (r.2 ++ r2.2))

/-! ## `VietCapitalProvider.get_quote` (vn_data_provider.py lines 35-104) -/

/-- The VietCapital quote dict keeps the raw JSON values of
`data.get(..., 0)` without numeric conversion. -/
structure VCQuote where
  ticker : String
  exchange : String
  price : JValue
  change : JValue
  change_pct : JValue
  volume : JValue

/-- Transport outcome of the VietCapital GET: HTTP status and the result of
`response.json()`. -/
structure VCEnv where
  status : Nat
  body : Except PyExc JValue
  aiText : Except PyExc (Option (List Char))

/-- `VietCapitalProvider.get_quote` returns either its own API dict or the
dict shape of the shared AI/basic fallback. -/
inductive VCResult where
  | api : VCQuote → VCResult
  | aiQ : RealQuote → VCResult

/-- The try-body of `VietCapitalProvider.get_quote`: explicit raises on 429
and 404, `raise_for_status` on other 4xx/5xx, then `.get` with defaults. -/
def vcTry (env : VCEnv) (ticker exchange : String) : Except PyExc VCQuote :=
  if env.status = 429 then .error .rateLimitError
  else if env.status = 404 then .error .dataNotFoundError
  else if 400 ≤ env.status then .error (.httpError env.status)
  else
    match env.body with
    | .error e => .error e
    | .ok (.jobj fs) =>
      .ok { ticker, exchange,
            price := jGetD fs "last_price".toList (.jnum ⟨false, ['0'], [], none⟩),
            change := jGetD fs "change".toList (.jnum ⟨false, ['0'], [], none⟩),
            change_pct := jGetD fs "change_percent".toList (.jnum ⟨false, ['0'], [], none⟩),
            volume := jGetD fs "volume".toList (.jnum ⟨false, ['0'], [], none⟩) }
    | .ok _ => .error .otherError

/-- `VietCapitalProvider.get_quote`: only `requests.RequestException` is
caught and routed to the AI fallback (whose own failure would raise
`DataProviderError`); the `RateLimitError`/`DataNotFoundError` raised on
429/404 are not `RequestException` and propagate to the caller. -/
def vcGetQuote (env : VCEnv) (ticker exchange : String) : Except PyExc VCResult :=
  match vcTry env ticker exchange with
  | .ok q => .ok (.api q)
  | .error e =>
    if isRequestException e then
      let handled : Except PyExc RealQuote :=
        match aiTry env.aiText ticker exchange with
        | .ok q => .ok q
        | .error _ => .ok (basicEstimate ticker exchange)
      match handled with
      | .ok q => .ok (.aiQ q)
      | .error _ => .error .dataProviderError
    else .error e

/-! ## The tenacity retry decorator and `get_ohlcv` -/

/-- `retry(stop=stop_after_attempt(n))` around a fallible operation:
attempt `k` runs `op k`; any exception is retried until `n` attempts have
been made, and the last error is then reported.  Returns the result and the
number of attempts made. -/
def retryCallAux {α : Type} (op : Nat → Except PyExc α) : Nat → Nat → Except PyExc α × Nat
  | 0, attempt => (.error .otherError, attempt)
  | 1, attempt => (op attempt, attempt)
  | n + 2, attempt =>
    match op attempt with
    | .ok a => (.ok a, attempt)
    | .error _ => retryCallAux op (n + 1) (attempt + 1)

def retryCall {α : Type} (maxAttempts : Nat) (op : Nat → Except PyExc α) :
    Except PyExc α × Nat :=
  retryCallAux op maxAttempts 1

/-- The decorator on `_call_ai_model` in both advisors:
`@retry(stop=stop_after_attempt(3), wait=wait_exponential(...))` — tenacity
default behaviour retries on every `Exception`, with no distinction between
transient and terminal errors. -/
def callAIModelRetry {α : Type} (op : Nat → Except PyExc α) : Except PyExc α × Nat :=
  retryCall 3 op

/-- `RealVNStockProvider.get_ohlcv` (lines 395-447) status handling: one
single attempt, with 429 and 404 classified into `RateLimitError` and
`DataNotFoundError` (which propagate — they are not `RequestException`),
other HTTP errors and transport errors converted to `DataProviderError`.
The per-field assembly of the chart data is abstracted into the returned
raw value. -/
def getOhlcvOnce (status : Nat) (fetch : Except PyExc JValue) : Except PyExc JValue :=
  if status = 429 then .error .rateLimitError
  else if status = 404 then .error .dataNotFoundError
  else if 400 ≤ status then .error .dataProviderError
  else
    match fetch with
    | .error e => if isRequestException e then .error .dataProviderError else .error e
    | .ok data =>
      match data with
      | .jobj fs =>
        match jLookup fs "data".toList with
        | some chart => .ok chart
        | none => .error .dataNotFoundError
      | _ => .error .dataNotFoundError

/-! ## `AIAdvisor._fallback_advisory` (ai_advisor.py lines 284-305) -/

/-- The two fields the rule-based fallback reads, `.get(..., 0)`. -/
structure StockData where
  pl_pct_vs_avg : Option Rat
  pct_to_target : Option Rat

/-- The advisory dict returned by `_fallback_advisory`. -/
structure Advisory where
  action : String
  rationale : String
  key_signals : List String
  risk_notes : String
  levels : List (String × JValue)
  next_checks : List String

def fallbackAdvisory (sd : StockData) : Advisory :=
  let pl := sd.pl_pct_vs_avg.getD 0
  let tgt := sd.pct_to_target.getD 0
  let action : String :=
    if pl < -10 then "reduce"
    else if 15 < tgt then "take_profit"
    else if 0 < pl ∧ 5 < tgt then "hold"
    else "add_small"
  { action
    rationale := "Fallback analysis based on P/L and target distance"
    key_signals := ["AI_UNAVAILABLE"]
    risk_notes := "AI analysis unavailable - using basic rules"
    levels := []
    next_checks := ["Monitor AI service availability"] }

/-- The parsed value when the pipeline took the direct-parse branch. -/
def AnalysisOutcome.parsedValue : AnalysisOutcome → Option JValue
  | .parsed v => some v
  | _ => none

/-! ## Helper lemmas -/

theorem dropWhile_append_of_all {p : Char → Bool} (xs ys : List Char)
    (h : ∀ x ∈ xs, p x = true) :
    List.dropWhile p (xs ++ ys) = List.dropWhile p ys := by
  induction xs with
  | nil => rfl
  | cons a xs ih =>
    have ha : p a = true := h a (List.mem_cons_self a xs)
    simp only [List.cons_append, List.dropWhile_cons, ha, if_true]
    exact ih fun x hx => h x (List.mem_cons_of_mem a hx)

/-- Greedy extraction on a text that splits as `t ++ post` with `t`
starting at `{`, ending at `}`, and no `}` in the tail: the match is
exactly `t`. -/
theorem extractJson_of_split (t post : List Char) (h1 : t.head? = some '{')
    (h2 : t.getLast? = some '}') (h3 : ∀ c ∈ post, c ≠ '}') :
    extractJson (t ++ post) = some t := by
  obtain ⟨t1, rfl⟩ : ∃ t1, t = '{' :: t1 := by
    cases t with
    | nil => simp at h1
    | cons a t1 =>
      simp only [List.head?_cons, Option.some.injEq] at h1
      exact ⟨t1, by rw [h1]⟩
  have hall : ∀ c ∈ post.reverse, (fun c => decide (c ≠ '}')) c = true := by
    intro c hc
    simp only [decide_eq_true_eq]
    exact h3 c (List.mem_reverse.mp hc)
  obtain ⟨r, hr⟩ : ∃ r, ('{' :: t1).reverse = '}' :: r := by
    have hh : (('{' :: t1).reverse).head? = some '}' := by
      rw [List.head?_reverse]; exact h2
    cases hx : ('{' :: t1).reverse with
    | nil => rw [hx] at hh; simp at hh
    | cons b r =>
      rw [hx] at hh
      simp only [List.head?_cons, Option.some.injEq] at hh
      subst hh
      exact ⟨r, rfl⟩
  have hstep1 : List.dropWhile (fun c => decide (c ≠ '{')) (('{' :: t1) ++ post)
      = ('{' :: t1) ++ post := by
    rw [List.cons_append, List.dropWhile_cons]
    simp
  have hu : (List.dropWhile (fun c => decide (c ≠ '}'))
      ((List.dropWhile (fun c => decide (c ≠ '{')) (('{' :: t1) ++ post)).reverse)).reverse
      = '{' :: t1 := by
    rw [hstep1, List.reverse_append, dropWhile_append_of_all _ _ hall, hr,
      List.dropWhile_cons, if_neg (by simp)]
    rw [← hr, List.reverse_reverse]
  simp only [extractJson]
  rw [hu]
  simp

/-! ## Claim C3 -/

/-- Claim C3, counterexample: for the input `{} }` — a well-formed JSON
object `{}` followed by trailing prose ` }` that contains a `}` — the
greedy `\{.*\}` extraction returns the whole text up to the last `}`, not
the JSON object. -/
theorem extraction_greedy_cex :
    jsonParse ['{', '}'] = some (.jobj []) ∧
    '}' ∈ [' ', '}'] ∧
    extractJson (['{', '}'] ++ [' ', '}']) = some ['{', '}', ' ', '}'] ∧
    extractJson (['{', '}'] ++ [' ', '}']) ≠ some ['{', '}'] := by
  refine ⟨rfl, by decide, rfl, by decide⟩

/-- Claim C3, amended: substring extraction matches greedily from the first
`{` to the last `}` of the text; it returns exactly the JSON object only
when the trailing prose after the object contains no `}` (no degraded flag
exists in this code path). -/
theorem extraction_spans_to_last_closer (t post : List Char)
    (h1 : t.head? = some '{') (h2 : t.getLast? = some '}')
    (h3 : ∀ c ∈ post, c ≠ '}') :
    extractJson (t ++ post) = some t :=
  extractJson_of_split t post h1 h2 h3

/-- Witness for the amended C3 theorem at `t = {}`, `post = " x"`. -/
theorem extraction_spans_to_last_closer_witness :
    extractJson (['{', '}'] ++ [' ', 'x']) = some ['{', '}'] :=
  extraction_spans_to_last_closer ['{', '}'] [' ', 'x'] rfl rfl (by decide)

/-! ## Claim C7 -/

/-- Claim C7, counterexample: the text `{"a": "{"}` is entirely one
well-formed JSON object, but the pipeline applies the count-based brace
balancing unconditionally, appends a spurious `}` (the `{` inside the
string literal inflates the opener count), fails the parse, and falls to
the regex fallback — so no value equal to the direct parse is returned. -/
theorem wellformed_not_preserved_cex :
    jsonParse ['{', '"', 'a', '"', ':', ' ', '"', '{', '"', '}'] =
      some (.jobj [(['a'], .jstr ['{'])]) ∧
    (processAIText ['{', '"', 'a', '"', ':', ' ', '"', '{', '"', '}'] false []).parsedValue
      = none :=
  ⟨rfl, rfl⟩

/-- Claim C7, amended: there is no separate direct-parse stage — the repair
substitutions run unconditionally — so a well-formed JSON object text comes
back parsed unchanged exactly when the repair pipeline is the identity on
it (no `,}`/`,]` sequences and balanced `{`/`}` and `[`/`]` character
counts, even inside string literals); the caller then attaches bookkeeping
keys to the parsed dict. -/
theorem wellformed_preserved_when_cleanup_fixes (s : List Char) (v : JValue)
    (em : Bool) (ps : List Position)
    (hparse : jsonParse s = some v) (hh : s.head? = some '{')
    (hl : s.getLast? = some '}') (hclean : cleanupRepair s = s) :
    processAIText s em ps = .parsed v := by
  have hx : extractJson s = some s := by
    have := extractJson_of_split s [] hh hl (by intro c hc; simp at hc)
    rwa [List.append_nil] at this
  simp only [processAIText, hx, hclean, hparse]

/-- Witness for the amended C7 theorem at the text `{"a": 1}`. -/
theorem wellformed_preserved_witness :
    processAIText ['{', '"', 'a', '"', ':', ' ', '1', '}'] false [] =
      .parsed (.jobj [(['a'], .jnum ⟨false, ['1'], [], none⟩)]) :=
  wellformed_preserved_when_cleanup_fixes
    ['{', '"', 'a', '"', ':', ' ', '1', '}'] (.jobj [(['a'], .jnum ⟨false, ['1'], [], none⟩)])
    false [] rfl rfl rfl rfl

/-! ## Claim C4 -/

/-- Claim C4, counterexample: on the extracted text `{"a": "{",}` the
spec's staged repair accepts after sub-step (a) alone (comma removal yields
the valid object), but the code applies the remaining sub-steps
unconditionally — bracket balancing appends a spurious `}` — parses only
once at the end, fails, and falls through to the regex fallback; no
degraded flag or repair-naming warning exists. -/
theorem staged_repair_cex :
    repairStagedSpec ['{', '"', 'a', '"', ':', ' ', '"', '{', '"', ',', '}'] =
      some (1, .jobj [(['a'], .jstr ['{'])]) ∧
    (processAIText ['{', '"', 'a', '"', ':', ' ', '"', '{', '"', ',', '}'] false []).parsedValue
      = none :=
  ⟨rfl, rfl⟩

/-- Claim C4, amended: the repair sub-steps are applied unconditionally in
their fixed source order with a single parse attempt after all of them; the
pipeline yields a parsed value exactly when that final fully-repaired text
parses, and when it does not parse the pipeline never yields a parsed value
(even if an earlier sub-step alone had produced valid JSON), falling to the
regex stages instead. -/
theorem single_parse_after_all_steps (t : List Char) (em : Bool)
    (ps : List Position) (jt : List Char) (hext : extractJson t = some jt) :
    (∀ v, jsonParse (cleanupRepair jt) = some v → processAIText t em ps = .parsed v) ∧
    (jsonParse (cleanupRepair jt) = none → (processAIText t em ps).parsedValue = none) := by
  constructor
  · intro v hv
    simp only [processAIText, hext, hv]
  · intro hnone
    simp only [processAIText, hext, hnone, extractDataWithRegex, AnalysisOutcome.parsedValue]

/-- Witness for the amended C4 theorem: the success branch at `{} ` and the
failure branch at `{x}`. -/
theorem single_parse_after_all_steps_witness :
    processAIText ['{', '}', ' '] false [] = .parsed (.jobj []) ∧
    (processAIText ['{', 'x', '}'] false []).parsedValue = none :=
  ⟨(single_parse_after_all_steps ['{', '}', ' '] false [] ['{', '}'] rfl).1 (.jobj []) rfl,
   (single_parse_after_all_steps ['{', 'x', '}'] false [] ['{', 'x', '}'] rfl).2 rfl⟩

/-! ## Claim C8 -/

/-- Claim C8, counterexample: on a raw text where no critical-field regex
matches at all (`hello`), `_extract_data_with_regex` still returns an
assembled object (with `portfolio_health` simply omitted and
`overall_risk` defaulted), not `None`; total parse failure is not
reported. -/
theorem regex_extraction_cex :
    findOverallScore "hello".toList = none ∧
    findOverallRisk "hello".toList = none ∧
    extractDataWithRegex "hello".toList false [] ≠ none := by
  refine ⟨rfl, rfl, fun h => Option.noConfusion h⟩

/-- Claim C8, amended: the regex extractor always returns an assembled
object — an unmatched `overall_score` omits the `portfolio_health` section
(rather than filling it from a default), an unmatched `overall_risk` is
filled with the built-in default `medium`, and no per-field warnings are
recorded; consequently when the repaired parse fails the pipeline always
takes the regex-fallback outcome, never a total-failure `none` from this
stage. -/
theorem regex_fallback_always_assembles :
    (∀ (text : List Char) (em : Bool) (ps : List Position),
      ∃ r, extractDataWithRegex text em ps = some r ∧
        r.portfolio_health = (findOverallScore text).map (fun n => ⟨n, healthStatus n⟩) ∧
        r.overall_risk = (findOverallRisk text).getD "medium".toList) ∧
    (∀ (t : List Char) (em : Bool) (ps : List Position) (jt : List Char),
      extractJson t = some jt → jsonParse (cleanupRepair jt) = none →
      ∃ r, processAIText t em ps = .regexFallback r) := by
  constructor
  · intro text em ps
    exact ⟨_, rfl, rfl, rfl⟩
  · intro t em ps jt hext hnone
    refine ⟨{ portfolio_health := (findOverallScore t).map (fun n => ⟨n, healthStatus n⟩)
              diversification_score := 6
              concentration_risk := "medium".toList
              overall_risk := (findOverallRisk t).getD "medium".toList
              entry_exit_analysis :=
                if em then some ((ps.take 5).map entryExitItem) else none
              action_items_priority := "high".toList
              vietnam_market_view := "neutral".toList }, ?_⟩
    simp only [processAIText, hext, hnone, extractDataWithRegex]

/-- Witness for the amended C8 theorem: the regex-fallback branch fires on
`{y}` (extraction succeeds, the repaired text still fails to parse). -/
theorem regex_fallback_always_assembles_witness :
    ∃ r, processAIText ['{', 'y', '}'] false [] = .regexFallback r :=
  regex_fallback_always_assembles.2 ['{', 'y', '}'] false [] ['{', 'y', '}'] rfl rfl

/-! ## Claim C9 -/

/-- Claim C9, counterexample: on the input `}` the count-based repair
appends nothing (closers already outnumber openers), so the produced text
does not have an equal number of `{` and `}` characters. -/
theorem bracket_balance_cex :
    ¬((balanceBrackets ['}']).count '{' = (balanceBrackets ['}']).count '}') := by
  decide

/-- Claim C9, amended: the count-based repair only ever appends — the
result is the original text followed by the brace deficit of `}` characters
and then the square-bracket deficit of `]` characters (so the original is a
prefix and all synthetic `}` precede all synthetic `]`), closers are at
least as numerous as openers of each kind afterwards, and the counts are
equal exactly when the original text had at least as many openers as
closers of that kind; an excess of closers is left unrepaired. -/
theorem bracket_balance_invariant (s : List Char) :
    balanceBrackets s =
      s ++ List.replicate (s.count '{' - s.count '}') '}'
        ++ List.replicate (s.count '[' - s.count ']') ']' ∧
    (balanceBrackets s).count '{' ≤ (balanceBrackets s).count '}' ∧
    (balanceBrackets s).count '[' ≤ (balanceBrackets s).count ']' ∧
    (s.count '}' ≤ s.count '{' →
      (balanceBrackets s).count '{' = (balanceBrackets s).count '}') ∧
    (s.count ']' ≤ s.count '[' →
      (balanceBrackets s).count '[' = (balanceBrackets s).count ']') := by
  have hshape : balanceBrackets s =
      s ++ List.replicate (s.count '{' - s.count '}') '}'
        ++ List.replicate (s.count '[' - s.count ']') ']' := by
    unfold balanceBrackets
    simp [List.count_append, List.count_replicate]
  refine ⟨hshape, ?_, ?_, ?_, ?_⟩ <;>
    simp only [hshape, List.count_append, List.count_replicate] <;>
    simp <;> omega

/-- Witness for the amended C9 theorem at `{[`: both deficits are repaired
to equality. -/
theorem bracket_balance_invariant_witness :
    (balanceBrackets ['{', '[']).count '{' = (balanceBrackets ['{', '[']).count '}' ∧
    (balanceBrackets ['{', '[']).count '[' = (balanceBrackets ['{', '[']).count ']' :=
  ⟨(bracket_balance_invariant ['{', '[']).2.2.2.1 (by decide),
   (bracket_balance_invariant ['{', '[']).2.2.2.2 (by decide)⟩

/-! ## Claim C1 -/

/-- Claim C1, counterexample: `VietCapitalProvider.get_quote` catches only
`requests.RequestException`, so the `DataNotFoundError` it raises on an
HTTP 404 (and the `RateLimitError` on a 429) propagates to the caller —
an exception does cross the resolve boundary. -/
theorem vietcapital_quote_raises_cex :
    vcGetQuote ⟨404, .ok (.jobj []), .ok none⟩ "FPT" "HOSE" =
      .error .dataNotFoundError ∧
    vcGetQuote ⟨429, .ok (.jobj []), .ok none⟩ "FPT" "HOSE" =
      .error .rateLimitError :=
  ⟨rfl, rfl⟩

/-- Claim C1, amended: `RealVNStockProvider.get_quote` never raises — for
every combination of upstream outcomes it returns a quote value, and when
every source fails it returns the terminal static basic estimate — but
`VietCapitalProvider.get_quote` does raise: its 429/404 classification
errors are not `requests.RequestException` and bypass the fallback
handler. -/
theorem realvn_quote_never_raises :
    (∀ (env : RealEnv) (t e : String), ∃ q, (realVNGetQuote env t e).1 = Except.ok q) ∧
    (∀ (t e : String) (e1 e2 e3 : PyExc),
      realVNGetQuote ⟨.error e1, .error e2, .error e3⟩ t e =
        (Except.ok (basicEstimate t e), [.ssi, .cafefSrc, .aiSrc, .basicSrc])) := by
  constructor
  · intro env t e
    cases hs : ssiTry env t e with
    | ok q => exact ⟨q, by simp [realVNGetQuote, hs]⟩
    | error u1 =>
      cases hc : cafefTry env t e with
      | ok q => exact ⟨q, by simp [realVNGetQuote, cafefQuoteE, hs, hc]⟩
      | error u2 =>
        cases ha : aiTry env.aiText t e with
        | ok q =>
          exact ⟨q, by simp [realVNGetQuote, cafefQuoteE, aiFallbackE, hs, hc, ha]⟩
        | error u3 =>
          exact ⟨basicEstimate t e,
            by simp [realVNGetQuote, cafefQuoteE, aiFallbackE, hs, hc, ha]⟩
  · intro t e e1 e2 e3
    rfl

/-! ## Claim C2 -/

/-- Claim C2: first success wins — a successful SSI quote is returned
immediately with no other source invoked, and when SSI fails and the CafeF
scrape succeeds the returned value is exactly the CafeF-built quote (hence
carries whatever source/confidence data that source attaches) and neither
the AI source nor the basic estimate is invoked. -/
theorem first_success_wins :
    (∀ (env : RealEnv) (t e : String) (q : RealQuote),
      ssiTry env t e = .ok q → realVNGetQuote env t e = (.ok q, [.ssi])) ∧
    (∀ (env : RealEnv) (t e : String) (err : PyExc) (q : RealQuote),
      ssiTry env t e = .error err → cafefTry env t e = .ok q →
      realVNGetQuote env t e = (.ok q, [.ssi, .cafefSrc])) := by
  constructor
  · intro env t e q hs
    simp [realVNGetQuote, hs]
  · intro env t e err q hs hc
    simp [realVNGetQuote, cafefQuoteE, hs, hc]

/-- Witness for C2: SSI fails with a connection error, the CafeF row
parses, and the CafeF quote is returned with the AI source uninvoked. -/
theorem first_success_wins_witness :
    ∃ q, realVNGetQuote
      ⟨.error .connError,
       .ok (some [[], [], [], [], [], ['1', '2', '3']]),
       .ok none⟩ "FPT" "HOSE" = (.ok q, [.ssi, .cafefSrc]) :=
  ⟨_, first_success_wins.2
    ⟨.error .connError, .ok (some [[], [], [], [], [], ['1', '2', '3']]), .ok none⟩
    "FPT" "HOSE" .connError _ rfl rfl⟩

/-! ## Claim C5 -/

/-- Claim C5, counterexample: an SSI response whose first record has
`ClosePrice = -5` — structurally valid but failing the `price > 0`
predicate — is forwarded to the caller as the resolved quote, not treated
as a source failure. -/
theorem negative_price_forwarded_cex :
    (realVNGetQuote ⟨.ok [⟨-5, 0, 0, 0⟩], .ok none, .ok none⟩ "FPT" "HOSE").1 =
      .ok ⟨"FPT", "HOSE", -5, 0, 0, 0, none, none, none⟩ ∧
    ¬(0 < (-5 : Rat)) :=
  ⟨rfl, by norm_num⟩

/-- Claim C5, amended: the only failure condition `get_quote` applies to a
structurally valid SSI response is emptiness of the `data` array; whatever
the first record contains — zero or negative `ClosePrice` included — is
converted and forwarded as the resolved quote with no semantic
validation. -/
theorem first_record_always_forwarded (env : RealEnv) (t e : String)
    (d : SSIRecord) (rest : List SSIRecord) (h : env.ssiResp = .ok (d :: rest)) :
    realVNGetQuote env t e =
      (.ok { ticker := t, exchange := e, price := d.closePrice, change := d.priceChange,
             change_pct := d.perPriceChange, volume := d.totalMatchVol,
             source := none, confidence := none, note := none }, [.ssi]) := by
  simp [realVNGetQuote, ssiTry, h]

/-- Witness for the amended C5 theorem: a record with `ClosePrice = 77` is
forwarded unchanged. -/
theorem first_record_always_forwarded_witness :
    realVNGetQuote ⟨.ok [⟨77, 1, 2, 900⟩], .ok none, .ok none⟩ "VNM" "HOSE" =
      (.ok ⟨"VNM", "HOSE", 77, 1, 2, 900, none, none, none⟩, [.ssi]) :=
  first_record_always_forwarded
    ⟨.ok [⟨77, 1, 2, 900⟩], .ok none, .ok none⟩ "VNM" "HOSE" ⟨77, 1, 2, 900⟩ [] rfl

/-! ## Claim C6 -/

/-- Claim C6, counterexample: an operation that fails with a terminal
4xx-equivalent error on every attempt is still retried by the tenacity
wrapper — three attempts are made, not one. -/
theorem terminal_error_retried_cex :
    callAIModelRetry (fun _ => (.error (.httpError 404) : Except PyExc JValue)) =
      (.error (.httpError 404), 3) ∧ (3 : Nat) ≠ 1 :=
  ⟨rfl, by decide⟩

/-- Claim C6, amended: the tenacity decorator on `_call_ai_model` retries
every exception alike — terminal or transient — up to three total
attempts, making no classification; the only place 4xx responses are
classified (`get_ohlcv`) performs exactly one attempt for every error,
raising `RateLimitError` on 429 and `DataNotFoundError` on 404
immediately. -/
theorem retry_ignores_error_class :
    (∀ e : PyExc, callAIModelRetry (fun _ => (.error e : Except PyExc JValue)) = (.error e, 3)) ∧
    (∀ fetch : Except PyExc JValue,
      getOhlcvOnce 429 fetch = .error .rateLimitError ∧
      getOhlcvOnce 404 fetch = .error .dataNotFoundError) := by
  constructor
  · intro e; rfl
  · intro fetch; exact ⟨rfl, rfl⟩

/-! ## Claim C10 -/

/-- Claim C10: `_fallback_advisory` is total and deterministic, returns
exactly the keys `action`, `rationale`, `key_signals`, `risk_notes`,
`levels`, `next_checks`, and chooses the action by the fixed rule —
`reduce` if `pl_pct_vs_avg < -10`, else `take_profit` if
`pct_to_target > 15`, else `hold` if `pl_pct_vs_avg > 0` and
`pct_to_target > 5`, else `add_small` — with missing fields defaulting
to 0. -/
theorem fallback_advisory_rule (sd : StockData) :
    fallbackAdvisory sd =
      { action :=
          if sd.pl_pct_vs_avg.getD 0 < -10 then "reduce"
          else if 15 < sd.pct_to_target.getD 0 then "take_profit"
          else if 0 < sd.pl_pct_vs_avg.getD 0 ∧ 5 < sd.pct_to_target.getD 0 then "hold"
          else "add_small"
        rationale := "Fallback analysis based on P/L and target distance"
        key_signals := ["AI_UNAVAILABLE"]
        risk_notes := "AI analysis unavailable - using basic rules"
        levels := []
        next_checks := ["Monitor AI service availability"] } :=
  rfl

end VNStock
